import Mathlib

/-
Shallow embedding of the WAF-Optimizer rule-relationship analyzer
(src/optimization_recs_module/rule_analyzer.py, class RuleRelationshipAnalyzer).

Modelling conventions:
* A compiled regex (Python re.Pattern, the value stored in rules_df['_re'])
  is modelled as an opaque matcher of type String → Option Bool:
  some b  = pattern.search(text) returned b (truthy match object / None),
  none    = the search raised an exception.
  re.compile itself is external library code; a rule therefore carries the
  already-compiled matcher as an Option (none = compilation failed even after
  the re.escape fallback, i.e. the Python code stored None in '_re').
* pandas DataFrames are lists of records; NaN cells are Option.none.
  Python str(nan) renders as "nan", which matters in the fuzzer's text
  construction (no pd.notna filtering there, unlike the match-matrix builder).
* Python sets are modelled as duplicate-free lists in insertion order;
  floats are modelled as exact rationals (ℚ).
* math.log2 is a float transcendental; it is passed in as an abstract
  function l2 : ℚ → ℚ so the exact confidence formula of the correlation
  detector can be stated over it.
* The module-level random.randint stream is modelled as an explicit stream
  s : ℕ → ℕ with a cursor k : ℕ threaded through the computation; each
  randint(a, b) call reads s k, reduces it into [a, b] and advances the
  cursor.
-/

namespace WafOpt

/-- An opaque compiled matcher: some b = search succeeded with boolean
outcome b, none = the search raised. -/
def Matcher : Type := String → Option Bool

/-- Character-list version of testing whether the first list starts the
second one (used to build literal-substring matchers). -/
def startsWithChars : List Char → List Char → Bool
  | [], _ => true
  | _ :: _, [] => false
  | a :: as, b :: bs => a == b && startsWithChars as bs

/-- Whether the pattern occurs as a contiguous run inside the text. -/
def containsPat (p : List Char) : List Char → Bool
  | [] => startsWithChars p []
  | c :: rest => startsWithChars p (c :: rest) || containsPat p rest

/-- The matcher produced by re.compile on a literal pattern (no regex
metacharacters): re.search then means substring containment and never
raises. -/
def substrMatcher (pat : String) : Matcher :=
  fun s => some (containsPat pat.toList s.toList)

/-- One row of rules_df after __init__ normalisation (missing phase /
priority / flags columns get defaults 2 / 1000 / '') and after
_compile_rule_regexes stored the compiled matcher in column '_re'
(field cre; none = compilation failed even after the escape fallback). -/
structure Rule where
  rule_id : String
  pattern : String
  action : String
  severity : String
  category : String
  phase : Int
  priority : Int
  cre : Option Matcher

/-- One row of traffic_df. transaction_id is taken as a natural number;
none in a text field models a NaN cell. -/
structure TrafficRow where
  transaction_id : Nat
  request_uri : Option String
  user_agent : Option String
  matched_data : Option String

/-- Python str() applied to a possibly-NaN cell: NaN stringifies as "nan". -/
def pyStr (x : Option String) : String := x.getD "nan"

/-- _row_request_text (rule_analyzer.py lines 93-99): join the
pd.notna fields among request_uri, user_agent, matched_data with spaces,
in that order. -/
def row_request_text (t : TrafficRow) : String :=
  String.intercalate " " (([t.request_uri, t.user_agent, t.matched_data]).filterMap id)

/-- The text built inside _fuzz_containment_test (line 390):
' '.join(str(row.get(c, '')) for c in ('matched_data', 'request_uri',
'user_agent')) — different field order than _row_request_text and NO
notna filter, so NaN cells contribute the string "nan". -/
def fuzz_row_text (t : TrafficRow) : String :=
  String.intercalate " " [pyStr t.matched_data, pyStr t.request_uri, pyStr t.user_agent]

/-- Adding a transaction id to a Python set, modelled as append-if-absent
on a duplicate-free list. -/
def insertTid (s : List Nat) (tid : Nat) : List Nat :=
  if s.contains tid then s else s ++ [tid]

/-- Whether a rule's compiled matcher matches the text, with the
_build_match_matrix error handling: rules whose '_re' is None are skipped
(line 111-112) and a per-cell exception just skips that cell
(lines 114-119). -/
def ruleMatches (cre : Option Matcher) (text : String) : Bool :=
  match cre with
  | none => false
  | some m =>
    match m text with
    | some b => b
    | none => false

/-- _build_match_matrix (lines 79-120): rule_id → set of transaction ids
whose combined request text the rule's compiled regex matches.  The
defaultdict is modelled as a total function returning [] for absent keys;
rules sharing a rule_id accumulate into the same entry, in rules order
then traffic order. -/
def build_match_matrix (rules : List Rule) (traffic : List TrafficRow) :
    String → List Nat :=
  fun id =>
    (rules.filter (fun r => r.rule_id == id)).foldl
      (fun acc r =>
        traffic.foldl
          (fun acc2 t =>
            if ruleMatches r.cre (row_request_text t) then insertTid acc2 t.transaction_id
            else acc2)
          acc)
      []

/-- Python `int(row.get('phase', 2) or 2)`: a falsy (zero) phase collapses
to the default 2. -/
def phase_key (r : Rule) : Int := if r.phase = 0 then 2 else r.phase

/-- Python `int(row.get('priority', 1000) or 1000)`: a falsy (zero)
priority collapses to the default 1000. -/
def prio_key (r : Rule) : Int := if r.priority = 0 then 1000 else r.priority

/-- Lexicographic comparison on _rule_order_key (phase asc, priority asc),
as used by Python sorted (which is stable, as is mergeSort). -/
def order_le (a b : Rule) : Bool :=
  decide (phase_key a < phase_key b ∨ (phase_key a = phase_key b ∧ prio_key a ≤ prio_key b))

/-- Stable insertion step: place x before the first element it compares
less-or-equal to, so an element keeps its position relative to equal keys
that were earlier in the original list. -/
def stable_insert (le : Rule → Rule → Bool) (x : Rule) : List Rule → List Rule
  | [] => [x]
  | y :: ys => if le x y then x :: y :: ys else y :: stable_insert le x ys

/-- sorted(self.rules_df.to_dict('records'), key=self._rule_order_key):
Python's sorted is a stable ascending sort, modelled as stable insertion
sort (structurally recursive so concrete runs evaluate in the kernel). -/
def ordered_rules (rules : List Rule) : List Rule :=
  rules.foldr (stable_insert order_le) []

/-- Python set intersection set_a & set_b, in set_a's order. -/
def interList (a b : List Nat) : List Nat := a.filter (fun x => b.contains x)

/-- len(set_a & set_b). -/
def interLen (a b : List Nat) : Nat := (interList a b).length

/-- len(set_a | set_b). -/
def unionLen (a b : List Nat) : Nat :=
  a.length + (b.filter (fun x => !(a.contains x))).length

/-- One relationship dict appended to self.relationships.  The four
relationship types populate different keys; keys absent from a type's dict
are modelled by "" / 0 / [] defaults (see the mk* builders below).  The
human-readable description string (pure presentation, float formatting) is
not modelled. -/
structure Relationship where
  relationship_type : String
  rule_a : String
  rule_b : String
  subsuming_rule : String
  subsumed_rule : String
  confidence : ℚ
  evidence_count : Nat
  evidence_tx_ids : List Nat
  jaccard : ℚ
  lift : ℚ
  conflicting_fields : List (String × String)
deriving DecidableEq, Repr

/-- The SHD dict literal of _detect_shadowing (lines 257-266). -/
def mkSHD (ra rb : String) (conf : ℚ) (ec : Nat) (ev : List Nat)
    (cf : List (String × String)) : Relationship :=
  ⟨"SHD", ra, rb, "", "", conf, ec, ev, 0, 0, cf⟩

/-- The RXD dict literal of _detect_redundancy (lines 279-288). -/
def mkRXD (ra rb : String) (conf : ℚ) (ec : Nat) (jac : ℚ)
    (cf : List (String × String)) : Relationship :=
  ⟨"RXD", ra, rb, "", "", conf, ec, [], jac, 0, cf⟩

/-- The COR dict literal of _detect_correlation (lines 303-312). -/
def mkCOR (ra rb : String) (conf : ℚ) (ec : Nat) (lf : ℚ)
    (cf : List (String × String)) : Relationship :=
  ⟨"COR", ra, rb, "", "", conf, ec, [], 0, lf, cf⟩

/-- The SUB dict literal of _detect_subsumption (lines 337-346 / 350-359). -/
def mkSUB (subsuming subsumed : String) (conf : ℚ) (ec : Nat) (ev : List Nat)
    (cf : List (String × String)) : Relationship :=
  ⟨"SUB", "", "", subsuming, subsumed, conf, ec, ev, 0, 0, cf⟩

/-- First rules_df row whose str(rule_id) equals the key — the lookup
pattern rules_df[rules_df['rule_id'].astype(str) == str(x)].iloc[0] used
throughout the analyzer. -/
def find_rule (rules : List Rule) (id : String) : Option Rule :=
  rules.find? (fun r => r.rule_id == id)

/-- ASCII lower-casing of one character (Python str.lower on the ASCII
action strings involved here). -/
def lower_char (c : Char) : Char :=
  if 65 ≤ c.toNat ∧ c.toNat ≤ 90 then Char.ofNat (c.toNat + 32) else c

/-- Python str.lower restricted to ASCII, on the character list. -/
def py_lower (a : String) : String := String.mk (a.toList.map lower_char)

/-- str(er_action).lower() in ('block', 'blocked', 'deny'). -/
def is_blocking_action (a : String) : Bool :=
  py_lower a == "block" || py_lower a == "blocked" || py_lower a == "deny"

/-- get_conflicting_fields (lines 422-437): overlapping metadata between
the two rules; a falsy (empty) field never conflicts; missing rules give
an empty dict. -/
def get_conflicting_fields (rules : List Rule) (ra rb : String) :
    List (String × String) :=
  match find_rule rules ra, find_rule rules rb with
  | some a, some b =>
    (if a.category ≠ "" ∧ b.category ≠ "" ∧ a.category = b.category then
       [("category", "Both category: " ++ a.category)] else [])
    ++ (if a.severity ≠ "" ∧ b.severity ≠ "" ∧ a.severity = b.severity then
       [("severity", "Both severity: " ++ a.severity)] else [])
    ++ (if a.action ≠ "" ∧ b.action ≠ "" ∧ a.action = b.action then
       [("action", "Both action: " ++ a.action)] else [])
  | _, _ => []

/-- Inner test of _detect_shadowing's transaction loop (lines 241-250):
an earlier rule er pre-blocks transaction tx iff er's match set contains
tx and er's action (looked up via _get_rule_meta, i.e. the first rules_df
row with that id) is a blocking action.  A matching earlier rule with a
non-blocking action does not shadow (it only resets the flag and the scan
continues), so the net effect is this existential test. -/
def earlier_rule_blocks (rules : List Rule) (matrix : String → List Nat)
    (er : String) (tx : Nat) : Bool :=
  (matrix er).contains tx &&
    (match find_rule rules er with
     | some r => is_blocking_action r.action
     | none => false)

/-- The evidence_tx list of _detect_shadowing: transactions of set_b (in
set order) pre-blocked by some rule executing before rule_b. -/
def shadow_evidence (rules : List Rule) (matrix : String → List Nat)
    (earlier : List String) (set_b : List Nat) : List Nat :=
  set_b.filter (fun tx => earlier.any (fun er => earlier_rule_blocks rules matrix er tx))

/-- _detect_shadowing (lines 217-267).  Positions come from
rule_order.index (first occurrence; a ValueError returns None).  Emits
only when rule_a executes strictly before rule_b, shadow_confidence =
blocked/(len(set_b) or 1) exceeds 0.75 and at least one evidence
transaction exists; evidence ids are truncated to 10 but evidence_count is
the untruncated count. -/
def detect_shadowing (rules : List Rule) (matrix : String → List Nat)
    (rule_order : List String) (rule_a rule_b : String) (set_b : List Nat) :
    Option Relationship :=
  match rule_order.findIdx? (· == rule_a), rule_order.findIdx? (· == rule_b) with
  | some pos_a, some pos_b =>
    if pos_a ≥ pos_b then none
    else
      let earlier := rule_order.take pos_b
      let evidence_tx := shadow_evidence rules matrix earlier set_b
      let blocked_count := evidence_tx.length
      let total_b : Nat := max 1 set_b.length
      let shadow_confidence : ℚ := (blocked_count : ℚ) / (total_b : ℚ)
      if shadow_confidence > 3/4 ∧ evidence_tx ≠ [] then
        some (mkSHD rule_a rule_b shadow_confidence blocked_count
          (evidence_tx.take 10) (get_conflicting_fields rules rule_a rule_b))
      else none
  | _, _ => none

/-- _detect_redundancy (lines 269-289): emit RXD when
co_occurrence_rate = |A∩B|/max(1, min(|A|,|B|)) > 0.85 and jaccard =
|A∩B|/|A∪B| (0 when the union is empty) > 0.7. -/
def detect_redundancy (rules : List Rule) (rule_a rule_b : String)
    (set_a set_b : List Nat) : Option Relationship :=
  if set_a.isEmpty && set_b.isEmpty then none
  else
    let intersection := interLen set_a set_b
    let co_occurrence_rate : ℚ :=
      (intersection : ℚ) / ((max 1 (min set_a.length set_b.length) : Nat) : ℚ)
    let union := unionLen set_a set_b
    let jaccard : ℚ := if union = 0 then 0 else (intersection : ℚ) / (union : ℚ)
    if co_occurrence_rate > 17/20 ∧ jaccard > 7/10 then
      some (mkRXD rule_a rule_b co_occurrence_rate intersection jaccard
        (get_conflicting_fields rules rule_a rule_b))
    else none

/-- total = max(1, len(traffic_df)) as a rational. -/
def cor_total (n : Nat) : ℚ := ((max 1 n : Nat) : ℚ)

/-- expected = (|A|/total) * (|B|/total). -/
def cor_expected (sa sb : List Nat) (n : Nat) : ℚ :=
  ((sa.length : ℚ) / cor_total n) * ((sb.length : ℚ) / cor_total n)

/-- lift = actual / expected with actual = |A∩B|/total. -/
def cor_lift (sa sb : List Nat) (n : Nat) : ℚ :=
  ((interLen sa sb : ℚ) / cor_total n) / cor_expected sa sb n

/-- _detect_correlation (lines 291-313) over an abstract log2.  The
expected == 0 early return precedes any division by expected; past it
expected > 0 holds, so the float('inf') arm of the conditional expression
is dead and lift = actual/expected.  Emission needs support ≥ 3 and
lift > 2.0; confidence = min(log2(lift)/5 + 0.2, 1.0). -/
def detect_correlation (l2 : ℚ → ℚ) (rules : List Rule)
    (rule_a rule_b : String) (set_a set_b : List Nat) (traffic_len : Nat) :
    Option Relationship :=
  let total : ℚ := ((max 1 traffic_len : Nat) : ℚ)
  let intersection := interLen set_a set_b
  let actual : ℚ := (intersection : ℚ) / total
  let expected : ℚ := ((set_a.length : ℚ) / total) * ((set_b.length : ℚ) / total)
  if expected = 0 then none
  else
    let lift : ℚ := actual / expected
    if 3 ≤ intersection ∧ lift > 2 then
      some (mkCOR rule_a rule_b (min (l2 lift / 5 + 1/5) 1) intersection lift
        (get_conflicting_fields rules rule_a rule_b))
    else none

/-- random.randint(lo, hi) over the explicit stream: reads s k, reduces it
into [lo, hi] and advances the cursor. -/
def randint (lo hi : Nat) (s : Nat → Nat) (k : Nat) : Nat × Nat :=
  (lo + s k % (hi + 1 - lo), k + 1)

/-- The chr(randint(33,126)) generator of the fuzzer's random branch,
consumed left to right. -/
def gen_chars (s : Nat → Nat) : Nat → Nat → List Char × Nat
  | 0, k => ([], k)
  | n + 1, k =>
    let c := randint 33 126 s k
    let rest := gen_chars s n c.2
    (Char.ofNat c.1 :: rest.1, rest.2)

/-- One random trial string of _fuzz_containment_test's fallback branch
(line 377): length randint(5,40), then that many random printable chars. -/
def gen_string (s : Nat → Nat) (k : Nat) : String × Nat :=
  let len := randint 5 40 s k
  let cs := gen_chars s len.1 len.2
  (String.mk cs.1, cs.2)

/-- Whether the sub rule's compiled regex matches the text, with the
fuzzer's per-trial try/except: a missing rule, a None '_re' (AttributeError)
or a raising search all count as a non-hit.  (In the examples branch the
Python lookup happens outside the try and a missing sub rule would raise
IndexError; that case is unreachable from the analyzer, where sub ids
always come from rules_df.) -/
def fuzz_hit (rules : List Rule) (sub_id : String) (text : String) : Bool :=
  match find_rule rules sub_id with
  | some r =>
    match r.cre with
    | some m => (m text).getD false
    | none => false
  | none => false

/-- The random-trial loop of the fallback branch (lines 375-382):
hit count and final stream cursor after n trials. -/
def fallback_trials (rules : List Rule) (sub_id : String) (s : Nat → Nat) :
    Nat → Nat → Nat × Nat
  | 0, k => (0, k)
  | n + 1, k =>
    let str1 := gen_string s k
    let rest := fallback_trials rules sub_id s n str1.2
    ((if fuzz_hit rules sub_id str1.1 then 1 else 0) + rest.1, rest.2)

/-- Ghost instrumentation: the list of random strings the fallback branch
generates in n trials (same stream consumption as fallback_trials). -/
def trial_strings (s : Nat → Nat) : Nat → Nat → List String × Nat
  | 0, k => ([], k)
  | n + 1, k =>
    let str1 := gen_string s k
    let rest := trial_strings s n str1.2
    (str1.1 :: rest.1, rest.2)

/-- The example strings of the fuzzer's traffic branch: fuzz texts of the
first min(200, |spec set|) matched transactions, skipping transaction ids
absent from traffic_df (lines 385-392).  Python's `if text:` filter never
drops anything: the 3-part join always contains two spaces, hence is
truthy. -/
def fuzz_examples (traffic : List TrafficRow) (matrix : String → List Nat)
    (spec_id : String) : List String :=
  ((matrix spec_id).take (min 200 (matrix spec_id).length)).filterMap
    (fun tx => (traffic.find? (fun t => t.transaction_id == tx)).map fuzz_row_text)

/-- The value returned by the fuzzer's traffic branch (lines 393-403): 0
when no examples were found, otherwise the hit proportion over the first
min(len, trials) examples; per-example exceptions count in the denominator
but not the numerator. -/
def fuzz_examples_value (rules : List Rule) (traffic : List TrafficRow)
    (matrix : String → List Nat) (sub_id spec_id : String) (trials : Nat) : ℚ :=
  let examples := fuzz_examples traffic matrix spec_id
  if examples.isEmpty then 0
  else
    let tested := examples.take (min examples.length trials)
    ((tested.countP (fun ex => fuzz_hit rules sub_id ex) : ℚ) / (tested.length : ℚ))

/-- _fuzz_containment_test (lines 364-403).  spec rule with no matched
transactions → up to min(trials,50) random-string trials against the sub
rule, returning hits/max(1, min(trials,50)).  Otherwise collect the fuzz
texts of up to 200 matched transactions (rows absent from traffic_df are
skipped; Python's `if text:` filter never drops anything because the
3-part join always contains spaces), test the first min(len, trials) of
them and return the hit proportion; per-example exceptions count in the
denominator but not the numerator. -/
def fuzz_containment_test (rules : List Rule) (traffic : List TrafficRow)
    (matrix : String → List Nat) (meta_sub meta_spec : Rule) (trials : Nat)
    (s : Nat → Nat) (k : Nat) : ℚ × Nat :=
  let spec_id := meta_spec.rule_id
  let sub_id := meta_sub.rule_id
  let spec_txids := matrix spec_id
  if spec_txids.isEmpty then
    let hk := fallback_trials rules sub_id s (min trials 50) k
    ((hk.1 : ℚ) / (((max 1 (min trials 50) : Nat)) : ℚ), hk.2)
  else
    (fuzz_examples_value rules traffic matrix sub_id spec_id trials, k)

/-- The a_contains_b closure of _detect_subsumption (lines 322-332):
empty candidate-subsumed set → direction rejected before any fuzzing;
otherwise the direction holds iff max(traffic_contained, fuzz_contained)
reaches the containment threshold, with evidence the first 10 common
transactions. -/
def a_contains_b (rules : List Rule) (traffic : List TrafficRow)
    (matrix : String → List Nat) (set_a_local set_b_local : List Nat)
    (meta_a_local meta_b_local : Rule) (trials : Nat) (th : ℚ)
    (s : Nat → Nat) (k : Nat) : (Bool × ℚ × List Nat) × Nat :=
  if set_b_local.isEmpty then ((false, 0, []), k)
  else
    let traffic_contained : ℚ :=
      (interLen set_a_local set_b_local : ℚ) / (set_b_local.length : ℚ)
    let fz := fuzz_containment_test rules traffic matrix meta_a_local meta_b_local trials s k
    let combined := max traffic_contained fz.1
    let evidence := (interList set_a_local set_b_local).take 10
    ((decide (combined ≥ th), combined, evidence), fz.2)

/-- _detect_subsumption (lines 315-362): test A⊇B then B⊇A, emitting a SUB
record per direction that holds; evidence_count is the length of the
already-truncated evidence list. -/
def detect_subsumption (rules : List Rule) (traffic : List TrafficRow)
    (matrix : String → List Nat) (rule_a rule_b : String)
    (meta_a meta_b : Rule) (set_a set_b : List Nat) (trials : Nat) (th : ℚ)
    (s : Nat → Nat) (k : Nat) : List Relationship × Nat :=
  let d1 := a_contains_b rules traffic matrix set_a set_b meta_a meta_b trials th s k
  let res1 := if d1.1.1 then
      [mkSUB rule_a rule_b d1.1.2.1 d1.1.2.2.length d1.1.2.2
        (get_conflicting_fields rules rule_a rule_b)]
    else []
  let d2 := a_contains_b rules traffic matrix set_b set_a meta_b meta_a trials th s d1.2
  let res2 := if d2.1.1 then
      [mkSUB rule_b rule_a d2.1.2.1 d2.1.2.2.length d2.1.2.2
        (get_conflicting_fields rules rule_b rule_a)]
    else []
  (res1 ++ res2, d2.2)

/-- analyze_rule_pair (lines 170-212): look both rules up in rules_df
(missing → no relationships), take their match sets from the matrix and
run the detectors selected by analysis_types, SHD first, then RXD, COR,
SUB. -/
def analyze_rule_pair (l2 : ℚ → ℚ) (rules : List Rule)
    (traffic : List TrafficRow) (matrix : String → List Nat)
    (rule_order : List String) (rule_a rule_b : String)
    (analysis_types : List String) (trials : Nat) (th : ℚ)
    (s : Nat → Nat) (k : Nat) : List Relationship × Nat :=
  match find_rule rules rule_a, find_rule rules rule_b with
  | some meta_a, some meta_b =>
    let set_a := matrix rule_a
    let set_b := matrix rule_b
    let shd := if analysis_types.contains "SHD" then
        (detect_shadowing rules matrix rule_order rule_a rule_b set_b).toList
      else []
    let rxd := if analysis_types.contains "RXD" then
        (detect_redundancy rules rule_a rule_b set_a set_b).toList
      else []
    let cor := if analysis_types.contains "COR" then
        (detect_correlation l2 rules rule_a rule_b set_a set_b traffic.length).toList
      else []
    let subk := if analysis_types.contains "SUB" then
        detect_subsumption rules traffic matrix rule_a rule_b meta_a meta_b
          set_a set_b trials th s k
      else ([], k)
    (shd ++ rxd ++ cor ++ subk.1, subk.2)
  | _, _ => ([], k)

/-- The shadowed-set update of analyze_all_relationships (lines 145-149):
each appended relationship of type SHD with a truthy rule_b adds that
rule_b to the shadowed set. -/
def track_shadowed (sh : List String) : List Relationship → List String
  | [] => sh
  | r :: rs =>
    track_shadowed
      (if r.relationship_type == "SHD" && r.rule_b != "" && !(sh.contains r.rule_b)
       then sh ++ [r.rule_b] else sh) rs

/-- The analyzer's configuration and inputs: the abstract log2, the rule
and traffic frames and the constructor parameters sample_fuzz_trials and
containment_threshold, plus the analysis_types argument of
analyze_all_relationships.  The random stream is kept separate so
statements about it stay direct. -/
structure Ctx where
  l2 : ℚ → ℚ
  rules : List Rule
  traffic : List TrafficRow
  analysis_types : List String
  sample_fuzz_trials : Nat
  containment_threshold : ℚ

/-- self.match_matrix, built once in __init__. -/
def Ctx.matrix (c : Ctx) : String → List Nat :=
  build_match_matrix c.rules c.traffic

/-- rule_ids of analyze_all_relationships: ids of the rules sorted by
(phase, priority). -/
def Ctx.rule_order (c : Ctx) : List String :=
  (ordered_rules c.rules).map (fun r => r.rule_id)

/-- The inner loop of analyze_all_relationships (lines 140-149): walk the
rules after rule_a, skipping any rule_b already shadowed, analyzing the
pair otherwise, appending its relationships and tracking new shadowed
rules. -/
def inner_loop (c : Ctx) (s : Nat → Nat) (rule_a : String) :
    List String → List String → List Relationship → Nat →
    List Relationship × List String × Nat
  | [], sh, rels, k => (rels, sh, k)
  | rb :: rest, sh, rels, k =>
    if sh.contains rb then inner_loop c s rule_a rest sh rels k
    else
      let new := analyze_rule_pair c.l2 c.rules c.traffic c.matrix c.rule_order
        rule_a rb c.analysis_types c.sample_fuzz_trials c.containment_threshold s k
      inner_loop c s rule_a rest (track_shadowed sh new.1) (rels ++ new.1) new.2

/-- The outer loop of analyze_all_relationships (lines 136-149): skip any
rule_a already shadowed, otherwise run the inner loop over the rules after
it. -/
def outer_loop (c : Ctx) (s : Nat → Nat) :
    List String → List String → List Relationship → Nat →
    List Relationship × List String × Nat
  | [], sh, rels, k => (rels, sh, k)
  | ra :: rest, sh, rels, k =>
    if sh.contains ra then outer_loop c s rest sh rels k
    else
      let step := inner_loop c s ra rest sh rels k
      outer_loop c s rest step.2.1 step.1 step.2.2

/-- analyze_all_relationships (lines 125-165), AI enhancement disabled:
the flat relationship list accumulated over all pairs (compile_results
groups exactly this list, so it is the run's full relationship output). -/
def analyze_all_relationships (c : Ctx) (s : Nat → Nat) : List Relationship :=
  (outer_loop c s c.rule_order [] [] 0).1

/-- Ghost instrumentation of the inner loop: the pairs actually handed to
analyze_rule_pair, with identical skip logic and state evolution. -/
def inner_pairs (c : Ctx) (s : Nat → Nat) (rule_a : String) :
    List String → List String → Nat →
    List (String × String) × List String × Nat
  | [], sh, k => ([], sh, k)
  | rb :: rest, sh, k =>
    if sh.contains rb then inner_pairs c s rule_a rest sh k
    else
      let new := analyze_rule_pair c.l2 c.rules c.traffic c.matrix c.rule_order
        rule_a rb c.analysis_types c.sample_fuzz_trials c.containment_threshold s k
      let tail := inner_pairs c s rule_a rest (track_shadowed sh new.1) new.2
      ((rule_a, rb) :: tail.1, tail.2)

/-- Ghost instrumentation of the outer loop: all pairs handed to
analyze_rule_pair over the whole run. -/
def outer_pairs (c : Ctx) (s : Nat → Nat) :
    List String → List String → Nat →
    List (String × String) × List String × Nat
  | [], sh, k => ([], sh, k)
  | ra :: rest, sh, k =>
    if sh.contains ra then outer_pairs c s rest sh k
    else
      let step := inner_pairs c s ra rest sh k
      let tail := outer_pairs c s rest step.2.1 step.2.2
      (step.1 ++ tail.1, tail.2)

/-- The rule pairs analyze_all_relationships actually evaluates. -/
def analyzed_pairs (c : Ctx) (s : Nat → Nat) : List (String × String) :=
  (outer_pairs c s c.rule_order [] 0).1

/-- A fixed random stream (any stream works for runs that never reach the
fuzzer's random branch). -/
def zeroStream : Nat → Nat := fun _ => 0

/-- Concrete input for the duplicate-pattern scenario: two rules with the
same literal pattern "select", phases 1, priorities 1 and 2, action block.
re.compile("select") on a literal pattern searches as substring
containment. -/
def rule4a : Rule := ⟨"1", "select", "block", "", "", 1, 1, some (substrMatcher "select")⟩

/-- Second rule of the duplicate-pattern scenario. -/
def rule4b : Rule := ⟨"2", "select", "block", "", "", 1, 2, some (substrMatcher "select")⟩

/-- Ten transactions whose request_uri contains "select". -/
def traffic4 : List TrafficRow :=
  (List.range 10).map (fun i => ⟨i, some "/search?q=select+1", none, none⟩)

/-- The duplicate-pattern analysis context (all four analysis types,
default trials 200 and threshold 0.99). -/
def ctx4 : Ctx := ⟨fun q => q, [rule4a, rule4b], traffic4, ["SHD", "RXD", "COR", "SUB"], 200, 99/100⟩

/-- Rule "1" of the skip-scenario: matches "x", blocking, earliest. -/
def rule1a : Rule := ⟨"1", "x", "block", "", "", 1, 1, some (substrMatcher "x")⟩

/-- Rule "2" of the skip-scenario: matches nothing in the traffic,
non-blocking, second in order. -/
def rule1b : Rule := ⟨"2", "qqq", "pass", "", "", 1, 2, some (substrMatcher "qqq")⟩

/-- Rule "3" of the skip-scenario: matches "x", third in order — shadowed
by rule "1". -/
def rule1c : Rule := ⟨"3", "x", "block", "", "", 1, 3, some (substrMatcher "x")⟩

/-- Two transactions containing "x". -/
def traffic1 : List TrafficRow := [⟨0, some "ax", none, none⟩, ⟨1, some "bx", none, none⟩]

/-- The skip-scenario context: rule "3" becomes shadowed during pair
("1","3"), after which pair ("2","3") — "3" in the inner role — is reached. -/
def ctx1 : Ctx := ⟨fun q => q, [rule1a, rule1b, rule1c], traffic1, ["SHD"], 200, 99/100⟩

/-- A rule whose pattern failed to compile even after the re.escape
fallback: its '_re' is None. -/
def rule2a : Rule := ⟨"A", "(", "block", "", "", 1, 1, none⟩

/-- A blocking rule matching "x", between the uncompilable rule and "B" in
execution order. -/
def rule2c : Rule := ⟨"C", "x", "block", "", "", 1, 2, some (substrMatcher "x")⟩

/-- The last rule in order, matching "x". -/
def rule2b : Rule := ⟨"B", "x", "block", "", "", 1, 3, some (substrMatcher "x")⟩

/-- Context with an uncompilable first rule "A": the blocking rule "C"
covers all of "B"'s matches, so the shadow detector emits SHD("A","B")
naming the uncompilable rule as rule_a. -/
def ctx2 : Ctx := ⟨fun q => q, [rule2a, rule2c, rule2b], traffic1, ["SHD", "RXD", "COR", "SUB"], 200, 99/100⟩

/-- A compiling first rule that matches nothing in the traffic, so its
match set is disjoint from every other rule's. -/
def rule3a : Rule := ⟨"A", "qqq", "block", "", "", 1, 1, some (substrMatcher "qqq")⟩

/-- Context with a first rule disjoint from "B": the shadow detector still
emits SHD("A","B") because the intermediate blocking rule "C" covers "B"'s
matches. -/
def ctx3 : Ctx := ⟨fun q => q, [rule3a, rule2c, rule2b], traffic1, ["SHD", "RXD", "COR", "SUB"], 200, 99/100⟩

/-- Twelve transactions containing "x" — enough for an SHD whose full
evidence count exceeds the 10-id evidence truncation. -/
def traffic9 : List TrafficRow :=
  (List.range 12).map (fun i => ⟨i, some "ax", none, none⟩)

/-- Context whose SHD relationship has 12 pre-blocked transactions:
evidence_count stays 12 while evidence_tx_ids is truncated to 10. -/
def ctx9 : Ctx := ⟨fun q => q, [rule1a, rule1c], traffic9, ["SHD"], 200, 99/100⟩

theorem toNat_ofNat_of_lt {n : Nat} (h : n < 55296) : (Char.ofNat n).toNat = n := by
  rw [Char.ofNat, dif_pos (Or.inl h)]
  rfl

theorem find_rule_id {rules : List Rule} {x : String} {r : Rule}
    (h : find_rule rules x = some r) : r.rule_id = x := by
  have := List.find?_some h
  exact eq_of_beq this

theorem find_rule_mem {rules : List Rule} {x : String} {r : Rule}
    (h : find_rule rules x = some r) : r ∈ rules :=
  List.mem_of_find?_eq_some h

theorem fuzz_hit_of_all_none {rules : List Rule} {x : String}
    (h : ∀ r ∈ rules, r.rule_id = x → r.cre = none) (t : String) :
    fuzz_hit rules x t = false := by
  unfold fuzz_hit
  cases hf : find_rule rules x with
  | none => rfl
  | some r =>
    have hcre : r.cre = none := h r (find_rule_mem hf) (find_rule_id hf)
    simp [hcre]

theorem ruleMatches_none (t : String) : ruleMatches none t = false := rfl

theorem contains_true_iff {α : Type} [BEq α] [LawfulBEq α] {l : List α} {a : α} :
    l.contains a = true ↔ a ∈ l := by
  simp [List.contains, List.elem_iff]

theorem interLen_nil_left (l : List Nat) : interLen [] l = 0 := rfl

theorem interLen_nil_right (l : List Nat) : interLen l [] = 0 := by
  unfold interLen interList
  induction l with
  | nil => rfl
  | cons x xs ih =>
    rw [List.filter_cons]
    rw [show ([] : List Nat).contains x = false from rfl]
    simp [ih]

theorem inter_empty_symm {a b : List Nat} (h : interList a b = []) :
    interLen b a = 0 := by
  have hmem : ∀ x ∈ a, x ∉ b := by
    intro x hx hxb
    have hcontains : b.contains x = true := contains_true_iff.mpr hxb
    have hmemf : x ∈ interList a b := List.mem_filter.mpr ⟨hx, hcontains⟩
    rw [h] at hmemf
    simp at hmemf
  have hnil : interList b a = [] := by
    unfold interList
    refine List.filter_eq_nil_iff.mpr ?_
    intro x hxb
    intro hcx
    exact hmem x (contains_true_iff.mp hcx) hxb
  unfold interLen
  rw [hnil]
  rfl

theorem traffic_fold_none :
    ∀ (ts : List TrafficRow) (acc : List Nat),
      ts.foldl
        (fun acc2 t =>
          if ruleMatches none (row_request_text t) then insertTid acc2 t.transaction_id
          else acc2) acc = acc := by
  intro ts
  induction ts with
  | nil => intro acc; rfl
  | cons t ts ih => intro acc; simp [ruleMatches_none, ih acc]

theorem match_fold_const (traffic : List TrafficRow) :
    ∀ (l : List Rule), (∀ r ∈ l, r.cre = none) → ∀ init : List Nat,
      l.foldl
        (fun acc r =>
          traffic.foldl
            (fun acc2 t =>
              if ruleMatches r.cre (row_request_text t) then insertTid acc2 t.transaction_id
              else acc2)
            acc)
        init = init := by
  intro l
  induction l with
  | nil => intro _ init; rfl
  | cons r rs ih =>
    intro hall init
    have hr : r.cre = none := hall r (List.mem_cons_self r rs)
    rw [List.foldl_cons]
    rw [show
      (traffic.foldl
        (fun acc2 t =>
          if ruleMatches r.cre (row_request_text t) then insertTid acc2 t.transaction_id
          else acc2) init) = init from hr ▸ traffic_fold_none traffic init]
    exact ih (fun r hr' => hall r (List.mem_cons_of_mem _ hr')) init

theorem build_match_matrix_empty {rules : List Rule} (traffic : List TrafficRow)
    {x : String} (h : ∀ r ∈ rules, r.rule_id = x → r.cre = none) :
    build_match_matrix rules traffic x = [] := by
  unfold build_match_matrix
  refine match_fold_const traffic _ ?_ []
  intro r hr
  have := List.mem_filter.mp hr
  exact h r this.1 (eq_of_beq this.2)

theorem mem_track_shadowed {x : String} :
    ∀ (l : List Relationship) (sh : List String), x ∈ sh → x ∈ track_shadowed sh l := by
  intro l
  induction l with
  | nil => intro sh h; exact h
  | cons r rs ih =>
    intro sh h
    unfold track_shadowed
    split
    · exact ih _ (List.mem_append_left _ h)
    · exact ih _ h

theorem inner_pairs_fst (c : Ctx) (s : Nat → Nat) (ra : String) :
    ∀ (rest sh : List String) (k : Nat) (p : String × String),
      p ∈ (inner_pairs c s ra rest sh k).1 → p.1 = ra := by
  intro rest
  induction rest with
  | nil => intro sh k p hp; simp [inner_pairs] at hp
  | cons rb rest ih =>
    intro sh k p hp
    unfold inner_pairs at hp
    split at hp
    · exact ih _ _ _ hp
    · rcases List.mem_cons.mp hp with h1 | h2
      · rw [h1]
      · exact ih _ _ _ h2

theorem inner_pairs_snd_ne (c : Ctx) (s : Nat → Nat) (ra x : String) :
    ∀ (rest sh : List String) (k : Nat), x ∈ sh →
      ∀ p ∈ (inner_pairs c s ra rest sh k).1, p.2 ≠ x := by
  intro rest
  induction rest with
  | nil => intro sh k _ p hp; simp [inner_pairs] at hp
  | cons rb rest ih =>
    intro sh k hx p hp
    unfold inner_pairs at hp
    split at hp
    · exact ih _ _ hx p hp
    · next hnc =>
      rcases List.mem_cons.mp hp with h1 | h2
      · rw [h1]
        intro hbx
        exact hnc (contains_true_iff.mpr (by rw [show rb = x from hbx]; exact hx))
      · exact ih _ _ (mem_track_shadowed _ _ hx) p h2

theorem inner_pairs_sh_mono (c : Ctx) (s : Nat → Nat) (ra x : String) :
    ∀ (rest sh : List String) (k : Nat), x ∈ sh →
      x ∈ (inner_pairs c s ra rest sh k).2.1 := by
  intro rest
  induction rest with
  | nil => intro sh k hx; exact hx
  | cons rb rest ih =>
    intro sh k hx
    unfold inner_pairs
    split
    · exact ih _ _ hx
    · exact ih _ _ (mem_track_shadowed _ _ hx)

theorem outer_pairs_ne (c : Ctx) (s : Nat → Nat) (x : String) :
    ∀ (ids sh : List String) (k : Nat), x ∈ sh →
      ∀ p ∈ (outer_pairs c s ids sh k).1, p.1 ≠ x ∧ p.2 ≠ x := by
  intro ids
  induction ids with
  | nil => intro sh k _ p hp; simp [outer_pairs] at hp
  | cons ra rest ih =>
    intro sh k hx p hp
    unfold outer_pairs at hp
    split at hp
    · exact ih _ _ hx p hp
    · next hnc =>
      rcases List.mem_append.mp hp with h1 | h2
      · constructor
        · rw [inner_pairs_fst c s ra rest sh k p h1]
          intro hax
          exact hnc (contains_true_iff.mpr (by rw [hax]; exact hx))
        · exact inner_pairs_snd_ne c s ra x rest sh k hx p h1
      · exact ih _ _ (inner_pairs_sh_mono c s ra x rest sh k hx) p h2

theorem mem_inner_loop (c : Ctx) (s : Nat → Nat) (ra : String) {r : Relationship} :
    ∀ (rest sh : List String) (rels : List Relationship) (k : Nat),
      r ∈ (inner_loop c s ra rest sh rels k).1 →
      r ∈ rels ∨ ∃ rb k',
        r ∈ (analyze_rule_pair c.l2 c.rules c.traffic c.matrix c.rule_order
          ra rb c.analysis_types c.sample_fuzz_trials c.containment_threshold s k').1 := by
  intro rest
  induction rest with
  | nil => intro sh rels k h; exact Or.inl h
  | cons rb rest ih =>
    intro sh rels k h
    unfold inner_loop at h
    split at h
    · exact ih _ _ _ h
    · rcases ih _ _ _ h with h1 | h2
      · rcases List.mem_append.mp h1 with ha | hb
        · exact Or.inl ha
        · exact Or.inr ⟨rb, k, hb⟩
      · exact Or.inr h2

theorem mem_outer_loop (c : Ctx) (s : Nat → Nat) {r : Relationship} :
    ∀ (ids sh : List String) (rels : List Relationship) (k : Nat),
      r ∈ (outer_loop c s ids sh rels k).1 →
      r ∈ rels ∨ ∃ a b k',
        r ∈ (analyze_rule_pair c.l2 c.rules c.traffic c.matrix c.rule_order
          a b c.analysis_types c.sample_fuzz_trials c.containment_threshold s k').1 := by
  intro ids
  induction ids with
  | nil => intro sh rels k h; exact Or.inl h
  | cons ra rest ih =>
    intro sh rels k h
    unfold outer_loop at h
    split at h
    · exact ih _ _ _ h
    · rcases ih _ _ _ h with h1 | h2
      · rcases mem_inner_loop c s ra rest sh rels k h1 with ha | ⟨rb, k', hb⟩
        · exact Or.inl ha
        · exact Or.inr ⟨ra, rb, k', hb⟩
      · exact Or.inr h2

theorem mem_analyze_all (c : Ctx) (s : Nat → Nat) {r : Relationship}
    (h : r ∈ analyze_all_relationships c s) :
    ∃ a b k,
      r ∈ (analyze_rule_pair c.l2 c.rules c.traffic c.matrix c.rule_order
        a b c.analysis_types c.sample_fuzz_trials c.containment_threshold s k).1 := by
  unfold analyze_all_relationships at h
  rcases mem_outer_loop c s c.rule_order [] [] 0 h with h1 | h2
  · simp at h1
  · exact h2

theorem mem_analyze_rule_pair {l2 : ℚ → ℚ} {rules : List Rule}
    {traffic : List TrafficRow} {matrix : String → List Nat}
    {order : List String} {a b : String} {types : List String} {trials : Nat}
    {th : ℚ} {s : Nat → Nat} {k : Nat} {r : Relationship}
    (h : r ∈ (analyze_rule_pair l2 rules traffic matrix order a b types trials th s k).1) :
    ∃ ma mb, find_rule rules a = some ma ∧ find_rule rules b = some mb ∧
      (detect_shadowing rules matrix order a b (matrix b) = some r ∨
       detect_redundancy rules a b (matrix a) (matrix b) = some r ∨
       detect_correlation l2 rules a b (matrix a) (matrix b) traffic.length = some r ∨
       r ∈ (detect_subsumption rules traffic matrix a b ma mb (matrix a) (matrix b)
         trials th s k).1) := by
  unfold analyze_rule_pair at h
  cases hma : find_rule rules a with
  | none => rw [hma] at h; simp at h
  | some ma =>
    cases hmb : find_rule rules b with
    | none => rw [hma, hmb] at h; simp at h
    | some mb =>
      rw [hma, hmb] at h
      refine ⟨ma, mb, rfl, rfl, ?_⟩
      dsimp only at h
      simp only [List.mem_append] at h
      rcases h with (((h1 | h2) | h3) | h4)
      · split at h1
        · exact Or.inl (by simpa using h1)
        · simp at h1
      · split at h2
        · exact Or.inr (Or.inl (by simpa using h2))
        · simp at h2
      · split at h3
        · exact Or.inr (Or.inr (Or.inl (by simpa using h3)))
        · simp at h3
      · split at h4
        · exact Or.inr (Or.inr (Or.inr h4))
        · simp at h4


theorem detect_shadowing_eq {rules : List Rule} {matrix : String → List Nat}
    {order : List String} {a b : String} {sb : List Nat} {r : Relationship}
    (h : detect_shadowing rules matrix order a b sb = some r) :
    ∃ pos_a pos_b, order.findIdx? (· == a) = some pos_a ∧
      order.findIdx? (· == b) = some pos_b ∧ pos_a < pos_b ∧
      shadow_evidence rules matrix (order.take pos_b) sb ≠ [] ∧
      ((shadow_evidence rules matrix (order.take pos_b) sb).length : ℚ) /
        (((max 1 sb.length : Nat)) : ℚ) > 3/4 ∧
      r = mkSHD a b
        (((shadow_evidence rules matrix (order.take pos_b) sb).length : ℚ) /
          (((max 1 sb.length : Nat)) : ℚ))
        (shadow_evidence rules matrix (order.take pos_b) sb).length
        ((shadow_evidence rules matrix (order.take pos_b) sb).take 10)
        (get_conflicting_fields rules a b) := by
  unfold detect_shadowing at h
  cases hpa : order.findIdx? (· == a) with
  | none => rw [hpa] at h; simp at h
  | some pos_a =>
    cases hpb : order.findIdx? (· == b) with
    | none => rw [hpa, hpb] at h; simp at h
    | some pos_b =>
      rw [hpa, hpb] at h
      dsimp only at h
      split at h
      · simp at h
      · next hge =>
        split at h
        · next hcond =>
          refine ⟨pos_a, pos_b, rfl, rfl, by omega, hcond.2, hcond.1, ?_⟩
          exact (Option.some.inj h).symm
        · simp at h

theorem detect_shadowing_empty {rules : List Rule} {matrix : String → List Nat}
    {order : List String} {a b : String} :
    detect_shadowing rules matrix order a b [] = none := by
  cases h : detect_shadowing rules matrix order a b [] with
  | none => rfl
  | some r =>
    obtain ⟨pa, pb, _, _, _, hne, _⟩ := detect_shadowing_eq h
    exact absurd rfl hne

theorem detect_redundancy_eq {rules : List Rule} {a b : String}
    {sa sb : List Nat} {r : Relationship}
    (h : detect_redundancy rules a b sa sb = some r) :
    ((interLen sa sb : ℚ) / (((max 1 (min sa.length sb.length) : Nat)) : ℚ)) > 17/20 ∧
    r = mkRXD a b
      ((interLen sa sb : ℚ) / (((max 1 (min sa.length sb.length) : Nat)) : ℚ))
      (interLen sa sb)
      (if unionLen sa sb = 0 then 0 else (interLen sa sb : ℚ) / (unionLen sa sb : ℚ))
      (get_conflicting_fields rules a b) := by
  unfold detect_redundancy at h
  split at h
  · simp at h
  · dsimp only at h
    by_cases hu : unionLen sa sb = 0
    · rw [if_pos hu] at h
      split at h
      · next hcond =>
        refine ⟨hcond.1, ?_⟩
        rw [if_pos hu]
        exact (Option.some.inj h).symm
      · simp at h
    · rw [if_neg hu] at h
      split at h
      · next hcond =>
        refine ⟨hcond.1, ?_⟩
        rw [if_neg hu]
        exact (Option.some.inj h).symm
      · simp at h

theorem detect_redundancy_inter_pos {rules : List Rule} {a b : String}
    {sa sb : List Nat} {r : Relationship}
    (h : detect_redundancy rules a b sa sb = some r) : 0 < interLen sa sb := by
  obtain ⟨hco, _⟩ := detect_redundancy_eq h
  by_contra hz
  have h0 : interLen sa sb = 0 := by omega
  rw [h0] at hco
  norm_num at hco

theorem detect_correlation_eq {l2 : ℚ → ℚ} {rules : List Rule} {a b : String}
    {sa sb : List Nat} {n : Nat} {r : Relationship}
    (h : detect_correlation l2 rules a b sa sb n = some r) :
    cor_expected sa sb n ≠ 0 ∧ 3 ≤ interLen sa sb ∧ cor_lift sa sb n > 2 ∧
    r = mkCOR a b (min (l2 (cor_lift sa sb n) / 5 + 1/5) 1) (interLen sa sb)
      (cor_lift sa sb n) (get_conflicting_fields rules a b) := by
  unfold detect_correlation at h
  dsimp only at h
  split at h
  · simp at h
  · next hne =>
    split at h
    · next hcond =>
      refine ⟨hne, hcond.1, hcond.2, ?_⟩
      exact (Option.some.inj h).symm
    · simp at h

theorem detect_correlation_none_of_expected_zero {l2 : ℚ → ℚ}
    {rules : List Rule} {a b : String} {sa sb : List Nat} {n : Nat}
    (h : cor_expected sa sb n = 0) :
    detect_correlation l2 rules a b sa sb n = none := by
  unfold detect_correlation
  dsimp only
  rw [if_pos]
  exact h

theorem detect_correlation_inter_pos {l2 : ℚ → ℚ} {rules : List Rule}
    {a b : String} {sa sb : List Nat} {n : Nat} {r : Relationship}
    (h : detect_correlation l2 rules a b sa sb n = some r) :
    0 < interLen sa sb := by
  have := (detect_correlation_eq h).2.1
  omega


theorem a_contains_b_empty {rules : List Rule} {traffic : List TrafficRow}
    {matrix : String → List Nat} {sa : List Nat} {ma mb : Rule}
    {trials : Nat} {th : ℚ} {s : Nat → Nat} {k : Nat} :
    a_contains_b rules traffic matrix sa [] ma mb trials th s k = ((false, 0, []), k) := rfl

theorem a_contains_b_nonempty {rules : List Rule} {traffic : List TrafficRow}
    {matrix : String → List Nat} {sa sb : List Nat} {ma mb : Rule}
    {trials : Nat} {th : ℚ} {s : Nat → Nat} {k : Nat} (hb : sb ≠ []) :
    a_contains_b rules traffic matrix sa sb ma mb trials th s k =
      ((decide (max ((interLen sa sb : ℚ) / (sb.length : ℚ))
          (fuzz_containment_test rules traffic matrix ma mb trials s k).1 ≥ th),
        max ((interLen sa sb : ℚ) / (sb.length : ℚ))
          (fuzz_containment_test rules traffic matrix ma mb trials s k).1,
        (interList sa sb).take 10),
       (fuzz_containment_test rules traffic matrix ma mb trials s k).2) := by
  cases sb with
  | nil => exact absurd rfl hb
  | cons x xs => rfl

theorem a_contains_b_true_ne {rules : List Rule} {traffic : List TrafficRow}
    {matrix : String → List Nat} {sa sb : List Nat} {ma mb : Rule}
    {trials : Nat} {th : ℚ} {s : Nat → Nat} {k : Nat}
    (h : (a_contains_b rules traffic matrix sa sb ma mb trials th s k).1.1 = true) :
    sb ≠ [] := by
  intro he
  subst he
  rw [a_contains_b_empty] at h
  simp at h

theorem mem_detect_subsumption {rules : List Rule} {traffic : List TrafficRow}
    {matrix : String → List Nat} {a b : String} {ma mb : Rule}
    {sa sb : List Nat} {trials : Nat} {th : ℚ} {s : Nat → Nat} {k : Nat}
    {r : Relationship}
    (h : r ∈ (detect_subsumption rules traffic matrix a b ma mb sa sb trials th s k).1) :
    (∃ k', sb ≠ [] ∧
      th ≤ max ((interLen sa sb : ℚ) / (sb.length : ℚ))
        ((fuzz_containment_test rules traffic matrix ma mb trials s k').1) ∧
      r = mkSUB a b
        (max ((interLen sa sb : ℚ) / (sb.length : ℚ))
          ((fuzz_containment_test rules traffic matrix ma mb trials s k').1))
        ((interList sa sb).take 10).length ((interList sa sb).take 10)
        (get_conflicting_fields rules a b)) ∨
    (∃ k', sa ≠ [] ∧
      th ≤ max ((interLen sb sa : ℚ) / (sa.length : ℚ))
        ((fuzz_containment_test rules traffic matrix mb ma trials s k').1) ∧
      r = mkSUB b a
        (max ((interLen sb sa : ℚ) / (sa.length : ℚ))
          ((fuzz_containment_test rules traffic matrix mb ma trials s k').1))
        ((interList sb sa).take 10).length ((interList sb sa).take 10)
        (get_conflicting_fields rules b a)) := by
  unfold detect_subsumption at h
  dsimp only at h
  rcases List.mem_append.mp h with h1 | h2
  · split at h1
    · next hd =>
      left
      have hsb := a_contains_b_true_ne hd
      rw [a_contains_b_nonempty hsb] at h1
      dsimp only at h1
      simp only [List.mem_singleton] at h1
      refine ⟨k, hsb, ?_, h1⟩
      rw [a_contains_b_nonempty hsb] at hd
      dsimp only at hd
      exact of_decide_eq_true hd
    · simp at h1
  · split at h2
    · next hd =>
      right
      have hsa := a_contains_b_true_ne hd
      rw [a_contains_b_nonempty hsa] at h2
      dsimp only at h2
      simp only [List.mem_singleton] at h2
      refine ⟨_, hsa, ?_, h2⟩
      rw [a_contains_b_nonempty hsa] at hd
      dsimp only at hd
      exact of_decide_eq_true hd
    · simp at h2

theorem fuzz_spec_nonempty {rules : List Rule} {traffic : List TrafficRow}
    {matrix : String → List Nat} {msub mspec : Rule} {trials : Nat}
    {s : Nat → Nat} {k : Nat} (h : matrix mspec.rule_id ≠ []) :
    fuzz_containment_test rules traffic matrix msub mspec trials s k =
      (fuzz_examples_value rules traffic matrix msub.rule_id mspec.rule_id trials, k) := by
  unfold fuzz_containment_test
  dsimp only
  cases hm : matrix mspec.rule_id with
  | nil => exact absurd hm h
  | cons x xs => rfl

theorem fallback_trials_zero {rules : List Rule} {sub_id : String}
    (h : ∀ r ∈ rules, r.rule_id = sub_id → r.cre = none) (s : Nat → Nat) :
    ∀ (n k : Nat), (fallback_trials rules sub_id s n k).1 = 0 := by
  intro n
  induction n with
  | zero => intro k; rfl
  | succ n ih =>
    intro k
    unfold fallback_trials
    dsimp only
    rw [fuzz_hit_of_all_none h, ih]
    rfl

theorem fuzz_examples_value_zero {rules : List Rule} {traffic : List TrafficRow}
    {matrix : String → List Nat} {sub_id spec_id : String} {trials : Nat}
    (h : ∀ r ∈ rules, r.rule_id = sub_id → r.cre = none) :
    fuzz_examples_value rules traffic matrix sub_id spec_id trials = 0 := by
  unfold fuzz_examples_value
  dsimp only
  split
  · rfl
  · rw [List.countP_eq_zero.mpr (fun a _ => by simp [fuzz_hit_of_all_none h])]
    simp

theorem fuzz_value_zero {rules : List Rule} {traffic : List TrafficRow}
    {matrix : String → List Nat} {msub mspec : Rule} {trials : Nat}
    {s : Nat → Nat} {k : Nat}
    (h : ∀ r ∈ rules, r.rule_id = msub.rule_id → r.cre = none) :
    (fuzz_containment_test rules traffic matrix msub mspec trials s k).1 = 0 := by
  unfold fuzz_containment_test
  dsimp only
  split
  · rw [fallback_trials_zero h]
    simp
  · exact fuzz_examples_value_zero h



theorem a_contains_b_congr (rules : List Rule) (traffic : List TrafficRow)
    (matrix : String → List Nat) (sa sb : List Nat) (ma mb : Rule)
    (trials : Nat) (th : ℚ) (s1 s2 : Nat → Nat) (k : Nat)
    (hf : fuzz_containment_test rules traffic matrix ma mb trials s1 k =
      fuzz_containment_test rules traffic matrix ma mb trials s2 k) :
    a_contains_b rules traffic matrix sa sb ma mb trials th s1 k =
      a_contains_b rules traffic matrix sa sb ma mb trials th s2 k := by
  unfold a_contains_b
  dsimp only
  rw [hf]

theorem a_contains_b_cursor (rules : List Rule) (traffic : List TrafficRow)
    (matrix : String → List Nat) (sa sb : List Nat) (ma mb : Rule)
    (trials : Nat) (th : ℚ) (s : Nat → Nat) (k : Nat)
    (hk : (fuzz_containment_test rules traffic matrix ma mb trials s k).2 = k) :
    (a_contains_b rules traffic matrix sa sb ma mb trials th s k).2 = k := by
  unfold a_contains_b
  dsimp only
  split
  · rfl
  · rw [hk]

theorem a_contains_b_indep (rules : List Rule) (traffic : List TrafficRow)
    (matrix : String → List Nat) (sa sb : List Nat) (ma mb : Rule)
    (trials : Nat) (th : ℚ) (s1 s2 : Nat → Nat) (k : Nat)
    (hm : matrix mb.rule_id = sb) :
    a_contains_b rules traffic matrix sa sb ma mb trials th s1 k =
      a_contains_b rules traffic matrix sa sb ma mb trials th s2 k := by
  by_cases hb : sb = []
  · subst hb
    exact a_contains_b_empty.trans a_contains_b_empty.symm
  · refine a_contains_b_congr rules traffic matrix sa sb ma mb trials th s1 s2 k ?_
    have hmne : matrix mb.rule_id ≠ [] := by rw [hm]; exact hb
    rw [fuzz_spec_nonempty hmne, fuzz_spec_nonempty hmne]

theorem a_contains_b_k (rules : List Rule) (traffic : List TrafficRow)
    (matrix : String → List Nat) (sa sb : List Nat) (ma mb : Rule)
    (trials : Nat) (th : ℚ) (s : Nat → Nat) (k : Nat)
    (hm : matrix mb.rule_id = sb) :
    (a_contains_b rules traffic matrix sa sb ma mb trials th s k).2 = k := by
  by_cases hb : sb = []
  · subst hb
    rw [a_contains_b_empty]
  · refine a_contains_b_cursor rules traffic matrix sa sb ma mb trials th s k ?_
    have hmne : matrix mb.rule_id ≠ [] := by rw [hm]; exact hb
    rw [fuzz_spec_nonempty hmne]

theorem detect_subsumption_indep (rules : List Rule) (traffic : List TrafficRow)
    (matrix : String → List Nat) (a b : String) (ma mb : Rule)
    (sa sb : List Nat) (trials : Nat) (th : ℚ) (s1 s2 : Nat → Nat) (k : Nat)
    (hma : matrix ma.rule_id = sa) (hmb : matrix mb.rule_id = sb) :
    detect_subsumption rules traffic matrix a b ma mb sa sb trials th s1 k =
      detect_subsumption rules traffic matrix a b ma mb sa sb trials th s2 k ∧
    (detect_subsumption rules traffic matrix a b ma mb sa sb trials th s1 k).2 = k := by
  have e1 := a_contains_b_indep rules traffic matrix sa sb ma mb trials th s1 s2 k hmb
  have k1 := a_contains_b_k rules traffic matrix sa sb ma mb trials th s1 k hmb
  have k1s := a_contains_b_k rules traffic matrix sa sb ma mb trials th s2 k hmb
  have e2 := a_contains_b_indep rules traffic matrix sb sa mb ma trials th s1 s2 k hma
  have k2 := a_contains_b_k rules traffic matrix sb sa mb ma trials th s1 k hma
  constructor
  · unfold detect_subsumption
    dsimp only
    rw [k1, k1s, e1, e2]
  · unfold detect_subsumption
    dsimp only
    rw [k1, k2]

theorem analyze_rule_pair_indep (l2 : ℚ → ℚ) (rules : List Rule)
    (traffic : List TrafficRow) (matrix : String → List Nat)
    (order : List String) (a b : String) (types : List String) (trials : Nat)
    (th : ℚ) (s1 s2 : Nat → Nat) (k : Nat) :
    analyze_rule_pair l2 rules traffic matrix order a b types trials th s1 k =
      analyze_rule_pair l2 rules traffic matrix order a b types trials th s2 k ∧
    (analyze_rule_pair l2 rules traffic matrix order a b types trials th s1 k).2 = k := by
  unfold analyze_rule_pair
  cases hma : find_rule rules a with
  | none => exact ⟨rfl, rfl⟩
  | some ma =>
    cases hmb : find_rule rules b with
    | none => exact ⟨rfl, rfl⟩
    | some mb =>
      dsimp only
      obtain ⟨de, dk⟩ :=
        detect_subsumption_indep rules traffic matrix a b ma mb (matrix a)
          (matrix b) trials th s1 s2 k (by rw [find_rule_id hma])
          (by rw [find_rule_id hmb])
      obtain ⟨_, dks⟩ :=
        detect_subsumption_indep rules traffic matrix a b ma mb (matrix a)
          (matrix b) trials th s2 s2 k (by rw [find_rule_id hma])
          (by rw [find_rule_id hmb])
      by_cases hsub : types.contains "SUB" = true
      · rw [if_pos hsub, if_pos hsub, de]
        refine ⟨rfl, ?_⟩
        rw [dks]
      · rw [if_neg hsub, if_neg hsub]
        exact ⟨rfl, rfl⟩

theorem inner_loop_indep (c : Ctx) (s1 s2 : Nat → Nat) (ra : String) :
    ∀ (rest sh : List String) (rels : List Relationship) (k : Nat),
      inner_loop c s1 ra rest sh rels k = inner_loop c s2 ra rest sh rels k ∧
      (inner_loop c s1 ra rest sh rels k).2.2 = k := by
  intro rest
  induction rest with
  | nil => intro sh rels k; exact ⟨rfl, rfl⟩
  | cons rb rest ih =>
    intro sh rels k
    unfold inner_loop
    by_cases hc : sh.contains rb = true
    · rw [if_pos hc, if_pos hc]
      exact ih sh rels k
    · rw [if_neg hc, if_neg hc]
      obtain ⟨pe, pk⟩ :=
        analyze_rule_pair_indep c.l2 c.rules c.traffic c.matrix c.rule_order
          ra rb c.analysis_types c.sample_fuzz_trials c.containment_threshold s1 s2 k
      have pk2 : (analyze_rule_pair c.l2 c.rules c.traffic c.matrix c.rule_order
          ra rb c.analysis_types c.sample_fuzz_trials c.containment_threshold s2 k).2 = k :=
        (analyze_rule_pair_indep c.l2 c.rules c.traffic c.matrix c.rule_order
          ra rb c.analysis_types c.sample_fuzz_trials c.containment_threshold s2 s2 k).2
      dsimp only
      rw [pe]
      refine ⟨(ih _ _ _).1, ?_⟩
      rw [(ih _ _ _).2]
      exact pk2

theorem outer_loop_indep (c : Ctx) (s1 s2 : Nat → Nat) :
    ∀ (ids sh : List String) (rels : List Relationship) (k : Nat),
      outer_loop c s1 ids sh rels k = outer_loop c s2 ids sh rels k := by
  intro ids
  induction ids with
  | nil => intro sh rels k; rfl
  | cons ra rest ih =>
    intro sh rels k
    unfold outer_loop
    by_cases hc : sh.contains ra = true
    · rw [if_pos hc, if_pos hc]
      exact ih sh rels k
    · rw [if_neg hc, if_neg hc]
      dsimp only
      rw [(inner_loop_indep c s1 s2 ra rest sh rels k).1]
      exact ih _ _ _


theorem gen_chars_len (s : Nat → Nat) : ∀ (n k : Nat), (gen_chars s n k).1.length = n := by
  intro n
  induction n with
  | zero => intro k; rfl
  | succ n ih =>
    intro k
    unfold gen_chars
    dsimp only
    rw [List.length_cons, ih]

theorem gen_chars_bounds (s : Nat → Nat) :
    ∀ (n k : Nat), ∀ c ∈ (gen_chars s n k).1, 33 ≤ c.toNat ∧ c.toNat ≤ 126 := by
  intro n
  induction n with
  | zero => intro k c hc; simp [gen_chars] at hc
  | succ n ih =>
    intro k c hc
    unfold gen_chars at hc
    dsimp only at hc
    rcases List.mem_cons.mp hc with h1 | h2
    · subst h1
      have hm := Nat.mod_lt (s k) (by omega : 0 < 126 + 1 - 33)
      have hlt : 33 + s k % (126 + 1 - 33) < 55296 := by omega
      rw [show (randint 33 126 s k).1 = 33 + s k % (126 + 1 - 33) from rfl]
      rw [toNat_ofNat_of_lt hlt]
      omega
    · exact ih _ c h2

theorem gen_string_bounds (s : Nat → Nat) (k : Nat) :
    5 ≤ (gen_string s k).1.length ∧ (gen_string s k).1.length ≤ 40 ∧
    ∀ c ∈ (gen_string s k).1.data, 33 ≤ c.toNat ∧ c.toNat ≤ 126 := by
  unfold gen_string
  dsimp only
  have hlen : (String.mk (gen_chars s (randint 5 40 s k).1 (randint 5 40 s k).2).1).length =
      (gen_chars s (randint 5 40 s k).1 (randint 5 40 s k).2).1.length := rfl
  rw [hlen, gen_chars_len]
  have hmod := Nat.mod_lt (s k) (by omega : 0 < 40 + 1 - 5)
  refine ⟨?_, ?_, ?_⟩
  · show 5 ≤ (randint 5 40 s k).1
    show 5 ≤ 5 + s k % (40 + 1 - 5)
    omega
  · show (randint 5 40 s k).1 ≤ 40
    show 5 + s k % (40 + 1 - 5) ≤ 40
    omega
  · intro c hc
    exact gen_chars_bounds s _ _ c hc

theorem trial_strings_len (s : Nat → Nat) :
    ∀ (n k : Nat), (trial_strings s n k).1.length = n := by
  intro n
  induction n with
  | zero => intro k; rfl
  | succ n ih =>
    intro k
    unfold trial_strings
    dsimp only
    rw [List.length_cons, ih]

theorem trial_strings_bounds (s : Nat → Nat) :
    ∀ (n k : Nat), ∀ str ∈ (trial_strings s n k).1,
      5 ≤ str.length ∧ str.length ≤ 40 ∧
      ∀ c ∈ str.data, 33 ≤ c.toNat ∧ c.toNat ≤ 126 := by
  intro n
  induction n with
  | zero => intro k str hstr; simp [trial_strings] at hstr
  | succ n ih =>
    intro k str hstr
    unfold trial_strings at hstr
    dsimp only at hstr
    rcases List.mem_cons.mp hstr with h1 | h2
    · subst h1
      exact gen_string_bounds s k
    · exact ih _ str h2

theorem fallback_eq_countP (rules : List Rule) (sub_id : String) (s : Nat → Nat) :
    ∀ (n k : Nat),
      (fallback_trials rules sub_id s n k).1 =
        (trial_strings s n k).1.countP (fun t => fuzz_hit rules sub_id t) ∧
      (fallback_trials rules sub_id s n k).2 = (trial_strings s n k).2 := by
  intro n
  induction n with
  | zero => intro k; exact ⟨rfl, rfl⟩
  | succ n ih =>
    intro k
    unfold fallback_trials trial_strings
    dsimp only
    rw [List.countP_cons, (ih _).1, (ih _).2]
    constructor
    · omega
    · rfl


/-- C1 counterexample: in the three-rule context ctx1, rule "3" is recorded
as SHD-shadowed while analyzing pair ("1","3"); the claim says the later
pair ("2","3") — where "3" plays the inner rule_b role — is still
evaluated, but the run evaluates exactly the pairs [("1","2"), ("1","3")]
and skips ("2","3"). -/
theorem c1_counterexample :
    analyze_all_relationships ctx1 zeroStream =
      [mkSHD "1" "3" 1 2 [0, 1] [("action", "Both action: block")]] ∧
    analyzed_pairs ctx1 zeroStream = [("1", "2"), ("1", "3")] ∧
    ("2", "3") ∉ analyzed_pairs ctx1 zeroStream := by
  refine ⟨?_, ?_, ?_⟩
  · with_unfolding_all decide
  · with_unfolding_all decide
  · with_unfolding_all decide

/-- C1 amended: the shadowed-rule skip is symmetric, not asymmetric — a
rule in the shadowed set is skipped in BOTH loop roles: no pair evaluated
from any loop state whose shadowed set contains x names x as the outer
rule_a or as the inner rule_b. -/
theorem c1_shadowed_skip_both_roles (c : Ctx) (s : Nat → Nat)
    (ids sh : List String) (k : Nat) (x : String) (hx : x ∈ sh) :
    ∀ p ∈ (outer_pairs c s ids sh k).1, p.1 ≠ x ∧ p.2 ≠ x :=
  outer_pairs_ne c s x ids sh k hx

/-- C1 witness: concrete instantiation of the symmetric-skip theorem at
ctx1 with initial shadowed set ["z"]. -/
theorem c1_witness :
    "z" ∈ ["z"] ∧ ("1", "2").1 ≠ "z" ∧ ("1", "2").2 ≠ "z" :=
  ⟨List.mem_singleton.mpr rfl,
   c1_shadowed_skip_both_roles ctx1 zeroStream ctx1.rule_order ["z"] 0 "z"
     (List.mem_singleton.mpr rfl) ("1", "2") (by with_unfolding_all decide)⟩

/-- C4: on two duplicate "select" rules (phases 1, priorities 1 and 2,
action block) over ten transactions whose request_uri contains "select",
the match matrix maps both rules to all ten transaction ids, an SHD
relationship with rule_a "1", rule_b "2" and confidence 1 is emitted, and
an RXD relationship for the pair with co-occurrence confidence 1 and
jaccard 1 is emitted. -/
theorem c4_concrete_run :
    ctx4.matrix "1" = [0, 1, 2, 3, 4, 5, 6, 7, 8, 9] ∧
    ctx4.matrix "2" = [0, 1, 2, 3, 4, 5, 6, 7, 8, 9] ∧
    mkSHD "1" "2" 1 10 [0, 1, 2, 3, 4, 5, 6, 7, 8, 9]
        [("action", "Both action: block")]
      ∈ analyze_all_relationships ctx4 zeroStream ∧
    mkRXD "1" "2" 1 10 1 [("action", "Both action: block")]
      ∈ analyze_all_relationships ctx4 zeroStream := by
  refine ⟨?_, ?_, ?_, ?_⟩
  · with_unfolding_all decide
  · with_unfolding_all decide
  · with_unfolding_all decide
  · with_unfolding_all decide

/-- C8: the analyzer is a pure function of its inputs and the random
stream — re-running it on equal rule/traffic/configuration inputs with an
equal (fixed-seed) stream yields an identical relationship list. -/
theorem c8_deterministic (c c' : Ctx) (s s' : Nat → Nat)
    (hc : c = c') (hs : s = s') :
    analyze_all_relationships c s = analyze_all_relationships c' s' := by
  subst hc
  subst hs
  rfl

/-- C8 witness: two runs on the duplicate-rule context with the same
stream coincide. -/
theorem c8_witness :
    analyze_all_relationships ctx4 zeroStream =
      analyze_all_relationships ctx4 zeroStream :=
  c8_deterministic ctx4 ctx4 zeroStream zeroStream rfl rfl

/-- C10: the random-string fallback branch of the containment fuzzer is
dead code in analyze_all_relationships — the subsumption detector only
reaches the fuzzer with a non-empty spec match set, so the run's output
does not depend on the random stream at all. -/
theorem c10_fallback_unreachable (c : Ctx) (s1 s2 : Nat → Nat) :
    analyze_all_relationships c s1 = analyze_all_relationships c s2 := by
  unfold analyze_all_relationships
  rw [outer_loop_indep c s1 s2 c.rule_order [] [] 0]


/-- C5: the correlation detector is total, emits iff expected ≠ 0,
intersection support ≥ 3 and lift > 2, returns none (before any division
by expected) when expected = 0, and every emitted relationship carries
confidence exactly min(log2(lift)/5 + 0.2, 1.0) for the abstract log2. -/
theorem c5_correlation_formula (l2 : ℚ → ℚ) (rules : List Rule)
    (ra rb : String) (sa sb : List Nat) (n : Nat) :
    ((detect_correlation l2 rules ra rb sa sb n).isSome ↔
      (cor_expected sa sb n ≠ 0 ∧ 3 ≤ interLen sa sb ∧ cor_lift sa sb n > 2)) ∧
    (cor_expected sa sb n = 0 → detect_correlation l2 rules ra rb sa sb n = none) ∧
    (∀ r, detect_correlation l2 rules ra rb sa sb n = some r →
      r.confidence = min (l2 (cor_lift sa sb n) / 5 + 1/5) 1 ∧
      r.relationship_type = "COR" ∧ r.rule_a = ra ∧ r.rule_b = rb ∧
      r.evidence_count = interLen sa sb ∧ r.lift = cor_lift sa sb n) := by
  refine ⟨?_, ?_, ?_⟩
  · constructor
    · intro hs
      obtain ⟨r, hr⟩ := Option.isSome_iff_exists.mp hs
      obtain ⟨h1, h2, h3, _⟩ := detect_correlation_eq hr
      exact ⟨h1, h2, h3⟩
    · rintro ⟨h1, h2, h3⟩
      unfold cor_expected cor_total at h1
      unfold cor_lift cor_expected cor_total at h3
      unfold detect_correlation
      dsimp only
      rw [if_neg h1, if_pos (And.intro h2 h3)]
      rfl
  · intro h
    exact detect_correlation_none_of_expected_zero h
  · intro r hr
    obtain ⟨_, _, _, heq⟩ := detect_correlation_eq hr
    subst heq
    exact ⟨rfl, rfl, rfl, rfl, rfl, rfl⟩

/-- C5 witness: two rules each matching transactions 0,1,2 of a 12-row
corpus give expected 1/16, lift 4 > 2, support 3 — a COR relationship is
emitted and, with log2 abstracted as the zero function, its stored
confidence evaluates to 0/5 + 1/5 = 1/5. -/
theorem c5_witness :
    (detect_correlation (fun _ : ℚ => 0) [] "a" "b" [0, 1, 2] [0, 1, 2] 12).isSome = true ∧
    (mkCOR "a" "b" (1/5) 3 4 []).confidence =
      min ((fun _ : ℚ => 0) (cor_lift [0, 1, 2] [0, 1, 2] 12) / 5 + 1/5) 1 :=
  ⟨(c5_correlation_formula (fun _ : ℚ => 0) [] "a" "b" [0, 1, 2] [0, 1, 2] 12).1.mpr
      ⟨by with_unfolding_all decide, by with_unfolding_all decide,
       by with_unfolding_all decide⟩,
   ((c5_correlation_formula (fun _ : ℚ => 0) [] "a" "b" [0, 1, 2] [0, 1, 2] 12).2.2
      (mkCOR "a" "b" (1/5) 3 4 []) (by with_unfolding_all decide)).1⟩

/-- C6: a subsumption direction with an empty candidate-subsumed set is
rejected outright (before any fuzzing); with a non-empty set it holds iff
max(traffic_contained, fuzz_contained) reaches the containment threshold,
with traffic_contained = |X∩Y|/|Y|; and no SUB relationship emitted by a
run names a rule with empty match set as the subsumed rule. -/
theorem c6_containment_direction :
    (∀ (rules : List Rule) (traffic : List TrafficRow)
       (matrix : String → List Nat) (sa : List Nat) (ma mb : Rule)
       (trials : Nat) (th : ℚ) (s : Nat → Nat) (k : Nat),
       a_contains_b rules traffic matrix sa [] ma mb trials th s k =
         ((false, 0, []), k)) ∧
    (∀ (rules : List Rule) (traffic : List TrafficRow)
       (matrix : String → List Nat) (sa sb : List Nat) (ma mb : Rule)
       (trials : Nat) (th : ℚ) (s : Nat → Nat) (k : Nat), sb ≠ [] →
       ((a_contains_b rules traffic matrix sa sb ma mb trials th s k).1.1 = true ↔
         th ≤ max ((interLen sa sb : ℚ) / (sb.length : ℚ))
           ((fuzz_containment_test rules traffic matrix ma mb trials s k).1))) ∧
    (∀ (c : Ctx) (s : Nat → Nat), ∀ r ∈ analyze_all_relationships c s,
       r.relationship_type = "SUB" → c.matrix r.subsumed_rule ≠ []) := by
  refine ⟨?_, ?_, ?_⟩
  · intro rules traffic matrix sa ma mb trials th s k
    exact a_contains_b_empty
  · intro rules traffic matrix sa sb ma mb trials th s k hb
    rw [a_contains_b_nonempty hb]
    exact decide_eq_true_iff
  · intro c s r hr hty
    obtain ⟨a, b, k, hpair⟩ := mem_analyze_all c s hr
    obtain ⟨ma, mb, hma, hmb, hdet⟩ := mem_analyze_rule_pair hpair
    rcases hdet with h | h | h | h
    · obtain ⟨_, _, _, _, _, _, _, heq⟩ := detect_shadowing_eq h
      subst heq
      simp [mkSHD] at hty
    · obtain ⟨_, heq⟩ := detect_redundancy_eq h
      subst heq
      simp [mkRXD] at hty
    · obtain ⟨_, _, _, heq⟩ := detect_correlation_eq h
      subst heq
      simp [mkCOR] at hty
    · rcases mem_detect_subsumption h with ⟨k', hne, _, heq⟩ | ⟨k', hne, _, heq⟩
      · subst heq
        exact hne
      · subst heq
        exact hne

/-- C6 witness: in the duplicate-rule run, the emitted SUB relationship's
subsumed rule "2" has a non-empty match set. -/
theorem c6_witness :
    ctx4.matrix (mkSUB "1" "2" 1 10 [0, 1, 2, 3, 4, 5, 6, 7, 8, 9]
      [("action", "Both action: block")]).subsumed_rule ≠ [] :=
  c6_containment_direction.2.2 ctx4 zeroStream _ (by with_unfolding_all decide) rfl

/-- C7: when the spec rule has no matched transactions, the fuzzer runs
exactly min(trials, 50) random trials, returns the hit count over
max(1, min(trials, 50)) where a hit needs the sub matcher to return a
truthy match (a raising matcher counts as a non-hit without aborting the
pass), and every generated string has length in [5, 40] with character
codes in [33, 126]. -/
theorem c7_fallback_behavior (rules : List Rule) (traffic : List TrafficRow)
    (matrix : String → List Nat) (msub mspec : Rule) (trials : Nat)
    (s : Nat → Nat) (k : Nat) (hspec : matrix mspec.rule_id = []) :
    (fuzz_containment_test rules traffic matrix msub mspec trials s k).1 =
      ((((trial_strings s (min trials 50) k).1.countP
          (fun t => fuzz_hit rules msub.rule_id t)) : ℚ)) /
        (((max 1 (min trials 50) : Nat)) : ℚ) ∧
    (trial_strings s (min trials 50) k).1.length = min trials 50 ∧
    ∀ str ∈ (trial_strings s (min trials 50) k).1,
      5 ≤ str.length ∧ str.length ≤ 40 ∧
      ∀ c ∈ str.data, 33 ≤ c.toNat ∧ c.toNat ≤ 126 := by
  refine ⟨?_, trial_strings_len s (min trials 50) k,
    trial_strings_bounds s (min trials 50) k⟩
  unfold fuzz_containment_test
  dsimp only
  rw [hspec]
  rw [(fallback_eq_countP rules msub.rule_id s (min trials 50) k).1]
  rfl

/-- C7 witness: with an empty spec match set, three requested trials and
the identity stream, the fallback value is the characterized quotient. -/
theorem c7_witness :
    ((fun _ : String => ([] : List Nat)) rule4b.rule_id = []) ∧
    (fuzz_containment_test [] [] (fun _ => []) rule4a rule4b 3 (fun n => n) 0).1 =
      ((((trial_strings (fun n => n) (min 3 50) 0).1.countP
          (fun t => fuzz_hit [] rule4a.rule_id t)) : ℚ)) /
        (((max 1 (min 3 50) : Nat)) : ℚ) :=
  ⟨rfl, (c7_fallback_behavior [] [] (fun _ => []) rule4a rule4b 3 (fun n => n) 0 rfl).1⟩

/-- C9: every relationship a run emits carries at most 10 evidence ids; an
emitted SUB relationship's evidence_count is the length of the truncated
list, i.e. min(|∩|, 10); an emitted SHD relationship's evidence_count is
the full untruncated pre-blocked count while its id list is truncated to
10. -/
theorem c9_evidence :
    (∀ (c : Ctx) (s : Nat → Nat), ∀ r ∈ analyze_all_relationships c s,
      r.evidence_tx_ids.length ≤ 10) ∧
    (∀ (rules : List Rule) (traffic : List TrafficRow)
       (matrix : String → List Nat) (a b : String) (ma mb : Rule)
       (sa sb : List Nat) (trials : Nat) (th : ℚ) (s : Nat → Nat) (k : Nat)
       (r : Relationship),
       r ∈ (detect_subsumption rules traffic matrix a b ma mb sa sb trials th s k).1 →
       (r.subsuming_rule = a ∧ r.subsumed_rule = b ∧
         r.evidence_count = min (interLen sa sb) 10 ∧
         r.evidence_count = r.evidence_tx_ids.length) ∨
       (r.subsuming_rule = b ∧ r.subsumed_rule = a ∧
         r.evidence_count = min (interLen sb sa) 10 ∧
         r.evidence_count = r.evidence_tx_ids.length)) ∧
    (∀ (rules : List Rule) (matrix : String → List Nat) (order : List String)
       (a b : String) (sb : List Nat) (r : Relationship),
       detect_shadowing rules matrix order a b sb = some r →
       ∃ pos_b, order.findIdx? (· == b) = some pos_b ∧
         r.evidence_count = (shadow_evidence rules matrix (order.take pos_b) sb).length ∧
         r.evidence_tx_ids = (shadow_evidence rules matrix (order.take pos_b) sb).take 10) := by
  refine ⟨?_, ?_, ?_⟩
  · intro c s r hr
    obtain ⟨a, b, k, hpair⟩ := mem_analyze_all c s hr
    obtain ⟨ma, mb, hma, hmb, hdet⟩ := mem_analyze_rule_pair hpair
    rcases hdet with h | h | h | h
    · obtain ⟨_, _, _, _, _, _, _, heq⟩ := detect_shadowing_eq h
      subst heq
      exact List.length_take_le 10 _
    · obtain ⟨_, heq⟩ := detect_redundancy_eq h
      subst heq
      simp [mkRXD]
    · obtain ⟨_, _, _, heq⟩ := detect_correlation_eq h
      subst heq
      simp [mkCOR]
    · rcases mem_detect_subsumption h with ⟨k', _, _, heq⟩ | ⟨k', _, _, heq⟩ <;>
        subst heq <;> exact List.length_take_le 10 _
  · intro rules traffic matrix a b ma mb sa sb trials th s k r h
    rcases mem_detect_subsumption h with ⟨k', _, _, heq⟩ | ⟨k', _, _, heq⟩
    · subst heq
      left
      refine ⟨rfl, rfl, ?_, rfl⟩
      show ((interList sa sb).take 10).length = min (interLen sa sb) 10
      rw [List.length_take]
      exact Nat.min_comm 10 _
    · subst heq
      right
      refine ⟨rfl, rfl, ?_, rfl⟩
      show ((interList sb sa).take 10).length = min (interLen sb sa) 10
      rw [List.length_take]
      exact Nat.min_comm 10 _
  · intro rules matrix order a b sb r h
    obtain ⟨pa, pb, _, hpb, _, _, _, heq⟩ := detect_shadowing_eq h
    subst heq
    exact ⟨pb, hpb, rfl, rfl⟩

/-- C9 witness: the twelve-transaction shadow run emits an SHD whose
evidence_count is the untruncated 12 while the evidence id list is capped
at 10 entries. -/
theorem c9_witness :
    (mkSHD "1" "3" 1 12 [0, 1, 2, 3, 4, 5, 6, 7, 8, 9]
      [("action", "Both action: block")]).evidence_tx_ids.length ≤ 10 ∧
    (mkSHD "1" "3" 1 12 [0, 1, 2, 3, 4, 5, 6, 7, 8, 9]
      [("action", "Both action: block")]).evidence_count = 12 :=
  ⟨c9_evidence.1 ctx9 zeroStream _ (by with_unfolding_all decide), rfl⟩


/-- C3 counterexample: rules "A" and "B" of ctx3 have disjoint match sets
(A matches nothing), yet the run emits SHD("A","B"): the intermediate
blocking rule "C" pre-blocks all of "B"'s matches and the shadow detector
attributes the shadowing to the earlier rule "A". -/
theorem c3_counterexample :
    interList (ctx3.matrix "A") (ctx3.matrix "B") = [] ∧
    (analyze_all_relationships ctx3 zeroStream).any
      (fun r => r.relationship_type == "SHD" && r.rule_a == "A" && r.rule_b == "B") = true := by
  refine ⟨?_, ?_⟩
  · with_unfolding_all decide
  · with_unfolding_all decide

/-- C3 amended: two rules with disjoint match sets get no RXD and no COR
relationship between them in either orientation (SHD can still be emitted
through other earlier blocking rules, and SUB through the fuzz path). -/
theorem c3_disjoint_no_rxd_cor (c : Ctx) (s : Nat → Nat) (a b : String)
    (hdisj : interList (c.matrix a) (c.matrix b) = []) :
    ∀ r ∈ analyze_all_relationships c s,
      ¬((r.relationship_type = "RXD" ∨ r.relationship_type = "COR") ∧
        ((r.rule_a = a ∧ r.rule_b = b) ∨ (r.rule_a = b ∧ r.rule_b = a))) := by
  intro r hr
  rintro ⟨hty, hroles⟩
  have hz1 : interLen (c.matrix a) (c.matrix b) = 0 := by
    unfold interLen
    rw [hdisj]
    rfl
  have hz2 : interLen (c.matrix b) (c.matrix a) = 0 := inter_empty_symm hdisj
  obtain ⟨p, q, k, hpair⟩ := mem_analyze_all c s hr
  obtain ⟨mp, mq, hmp, hmq, hdet⟩ := mem_analyze_rule_pair hpair
  rcases hdet with h | h | h | h
  · obtain ⟨_, _, _, _, _, _, _, heq⟩ := detect_shadowing_eq h
    subst heq
    rcases hty with hty1 | hty1 <;> simp [mkSHD] at hty1
  · have hpos := detect_redundancy_inter_pos h
    obtain ⟨_, heq⟩ := detect_redundancy_eq h
    subst heq
    rcases hroles with ⟨hpa, hqb⟩ | ⟨hpb, hqa⟩
    · have hp : p = a := hpa
      have hq : q = b := hqb
      subst hp
      subst hq
      omega
    · have hp : p = b := hpb
      have hq : q = a := hqa
      subst hp
      subst hq
      omega
  · have hpos := detect_correlation_inter_pos h
    obtain ⟨_, _, _, heq⟩ := detect_correlation_eq h
    subst heq
    rcases hroles with ⟨hpa, hqb⟩ | ⟨hpb, hqa⟩
    · have hp : p = a := hpa
      have hq : q = b := hqb
      subst hp
      subst hq
      omega
    · have hp : p = b := hpb
      have hq : q = a := hqa
      subst hp
      subst hq
      omega
  · rcases mem_detect_subsumption h with ⟨_, _, _, heq⟩ | ⟨_, _, _, heq⟩ <;> subst heq <;>
      (rcases hty with hty1 | hty1 <;> simp [mkSUB] at hty1)

/-- C3 witness: the amended theorem applied to ctx3's emitted SHD record:
it is neither RXD nor COR between the disjoint pair. -/
theorem c3_witness :
    ¬(((mkSHD "A" "B" 1 2 [0, 1]
          [("action", "Both action: block")]).relationship_type = "RXD" ∨
       (mkSHD "A" "B" 1 2 [0, 1]
          [("action", "Both action: block")]).relationship_type = "COR") ∧
      (((mkSHD "A" "B" 1 2 [0, 1]
           [("action", "Both action: block")]).rule_a = "A" ∧
        (mkSHD "A" "B" 1 2 [0, 1]
           [("action", "Both action: block")]).rule_b = "B") ∨
       ((mkSHD "A" "B" 1 2 [0, 1]
           [("action", "Both action: block")]).rule_a = "B" ∧
        (mkSHD "A" "B" 1 2 [0, 1]
           [("action", "Both action: block")]).rule_b = "A"))) :=
  c3_disjoint_no_rxd_cor ctx3 zeroStream "A" "B" (by with_unfolding_all decide) _
    (by with_unfolding_all decide)

/-- C2 counterexample: rule "A" of ctx2 has a None compiled matcher and an
empty match-matrix entry, yet the run emits an SHD relationship naming "A"
as rule_a (the covering is done by the later blocking rule "C"). -/
theorem c2_counterexample :
    rule2a.cre = none ∧ rule2a ∈ ctx2.rules ∧
    build_match_matrix ctx2.rules ctx2.traffic "A" = [] ∧
    (analyze_all_relationships ctx2 zeroStream).any
      (fun r => r.relationship_type == "SHD" && r.rule_a == "A") = true := by
  refine ⟨rfl, ?_, ?_, ?_⟩
  · show rule2a ∈ [rule2a, rule2c, rule2b]
    exact List.mem_cons_self _ _
  · with_unfolding_all decide
  · with_unfolding_all decide

/-- C2 amended: a rule whose compiled matcher is None (all rules carrying
its id, so the match-matrix entry is genuinely its own) has an empty match
set and, provided the containment threshold is positive, never appears as
rule_b of an SHD, in either role of an RXD or COR, or in either role of a
SUB relationship; it CAN still appear as rule_a of an SHD. -/
theorem c2_uncompilable_rule_isolated (c : Ctx) (s : Nat → Nat) (x : String)
    (hnone : ∀ r ∈ c.rules, r.rule_id = x → r.cre = none)
    (hth : 0 < c.containment_threshold) :
    c.matrix x = [] ∧
    ∀ r ∈ analyze_all_relationships c s,
      ¬(r.relationship_type = "SHD" ∧ r.rule_b = x) ∧
      ¬(r.relationship_type = "RXD" ∧ (r.rule_a = x ∨ r.rule_b = x)) ∧
      ¬(r.relationship_type = "COR" ∧ (r.rule_a = x ∨ r.rule_b = x)) ∧
      ¬(r.relationship_type = "SUB" ∧ (r.subsuming_rule = x ∨ r.subsumed_rule = x)) := by
  have hmx : c.matrix x = [] := build_match_matrix_empty c.traffic hnone
  refine ⟨hmx, ?_⟩
  intro r hr
  obtain ⟨a, b, k, hpair⟩ := mem_analyze_all c s hr
  obtain ⟨ma, mb, hma, hmb, hdet⟩ := mem_analyze_rule_pair hpair
  rcases hdet with h | h | h | h
  · obtain ⟨pa, pb, hfa, hfb, hlt, hne, hconf, heq⟩ := detect_shadowing_eq h
    subst heq
    refine ⟨?_, ?_, ?_, ?_⟩
    · rintro ⟨_, hbx⟩
      have hb : b = x := hbx
      subst hb
      rw [hmx] at h
      rw [detect_shadowing_empty] at h
      exact Option.noConfusion h
    · rintro ⟨hty1, _⟩
      simp [mkSHD] at hty1
    · rintro ⟨hty1, _⟩
      simp [mkSHD] at hty1
    · rintro ⟨hty1, _⟩
      simp [mkSHD] at hty1
  · have hpos := detect_redundancy_inter_pos h
    obtain ⟨_, heq⟩ := detect_redundancy_eq h
    subst heq
    refine ⟨?_, ?_, ?_, ?_⟩
    · rintro ⟨hty1, _⟩
      simp [mkRXD] at hty1
    · rintro ⟨_, hor⟩
      rcases hor with hax | hbx
      · have ha : a = x := hax
        subst ha
        rw [hmx, interLen_nil_left] at hpos
        omega
      · have hb : b = x := hbx
        subst hb
        rw [hmx, interLen_nil_right] at hpos
        omega
    · rintro ⟨hty1, _⟩
      simp [mkRXD] at hty1
    · rintro ⟨hty1, _⟩
      simp [mkRXD] at hty1
  · have hpos := detect_correlation_inter_pos h
    obtain ⟨_, _, _, heq⟩ := detect_correlation_eq h
    subst heq
    refine ⟨?_, ?_, ?_, ?_⟩
    · rintro ⟨hty1, _⟩
      simp [mkCOR] at hty1
    · rintro ⟨hty1, _⟩
      simp [mkCOR] at hty1
    · rintro ⟨_, hor⟩
      rcases hor with hax | hbx
      · have ha : a = x := hax
        subst ha
        rw [hmx, interLen_nil_left] at hpos
        omega
      · have hb : b = x := hbx
        subst hb
        rw [hmx, interLen_nil_right] at hpos
        omega
    · rintro ⟨hty1, _⟩
      simp [mkCOR] at hty1
  · rcases mem_detect_subsumption h with ⟨k', hne, hthle, heq⟩ | ⟨k', hne, hthle, heq⟩
    · subst heq
      refine ⟨?_, ?_, ?_, ?_⟩
      · rintro ⟨hty1, _⟩
        simp [mkSUB] at hty1
      · rintro ⟨hty1, _⟩
        simp [mkSUB] at hty1
      · rintro ⟨hty1, _⟩
        simp [mkSUB] at hty1
      · rintro ⟨_, hor⟩
        rcases hor with hax | hbx
        · have ha : a = x := hax
          subst ha
          have hid := find_rule_id hma
          have hfz : (fuzz_containment_test c.rules c.traffic c.matrix ma mb
              c.sample_fuzz_trials s k').1 = 0 :=
            fuzz_value_zero (fun r' hr' hre => hnone r' hr' (hre.trans hid))
          rw [hmx, interLen_nil_left, hfz] at hthle
          simp at hthle
          exact absurd (lt_of_lt_of_le hth hthle) (lt_irrefl 0)
        · have hb : b = x := hbx
          subst hb
          rw [hmx] at hne
          exact hne rfl
    · subst heq
      refine ⟨?_, ?_, ?_, ?_⟩
      · rintro ⟨hty1, _⟩
        simp [mkSUB] at hty1
      · rintro ⟨hty1, _⟩
        simp [mkSUB] at hty1
      · rintro ⟨hty1, _⟩
        simp [mkSUB] at hty1
      · rintro ⟨_, hor⟩
        rcases hor with hbx | hax
        · have hb : b = x := hbx
          subst hb
          have hid := find_rule_id hmb
          have hfz : (fuzz_containment_test c.rules c.traffic c.matrix mb ma
              c.sample_fuzz_trials s k').1 = 0 :=
            fuzz_value_zero (fun r' hr' hre => hnone r' hr' (hre.trans hid))
          rw [hmx, interLen_nil_left, hfz] at hthle
          simp at hthle
          exact absurd (lt_of_lt_of_le hth hthle) (lt_irrefl 0)
        · have ha : a = x := hax
          subst ha
          rw [hmx] at hne
          exact hne rfl

/-- C2 witness: the amended theorem applied to ctx2 at rule id "A":
its match set is empty and ctx2's emitted SHD("A","B") does not name "A"
as rule_b. -/
theorem c2_witness :
    ctx2.matrix "A" = [] ∧
    ¬((mkSHD "A" "B" 1 2 [0, 1]
         [("action", "Both action: block")]).relationship_type = "SHD" ∧
      (mkSHD "A" "B" 1 2 [0, 1]
         [("action", "Both action: block")]).rule_b = "A") := by
  have hnone : ∀ r ∈ ctx2.rules, r.rule_id = "A" → r.cre = none := by
    intro r hr hid
    have hr' : r = rule2a ∨ r = rule2c ∨ r = rule2b := by
      simpa [ctx2] using hr
    rcases hr' with rfl | rfl | rfl
    · rfl
    · exact absurd hid (by decide)
    · exact absurd hid (by decide)
  have h := c2_uncompilable_rule_isolated ctx2 zeroStream "A" hnone
    (by with_unfolding_all decide)
  exact ⟨h.1, (h.2 _ (by with_unfolding_all decide)).1⟩


theorem inner_pairs_matches_loop (c : Ctx) (s : Nat → Nat) (ra : String) :
    ∀ (rest sh : List String) (rels : List Relationship) (k : Nat),
      (inner_pairs c s ra rest sh k).2.1 = (inner_loop c s ra rest sh rels k).2.1 ∧
      (inner_pairs c s ra rest sh k).2.2 = (inner_loop c s ra rest sh rels k).2.2 := by
  intro rest
  induction rest with
  | nil => intro sh rels k; exact ⟨rfl, rfl⟩
  | cons rb rest ih =>
    intro sh rels k
    unfold inner_pairs inner_loop
    by_cases hc : sh.contains rb = true
    · rw [if_pos hc, if_pos hc]
      exact ih sh rels k
    · rw [if_neg hc, if_neg hc]
      dsimp only
      exact ih _ _ _

theorem outer_pairs_matches_loop (c : Ctx) (s : Nat → Nat) :
    ∀ (ids sh : List String) (rels : List Relationship) (k : Nat),
      (outer_pairs c s ids sh k).2.1 = (outer_loop c s ids sh rels k).2.1 ∧
      (outer_pairs c s ids sh k).2.2 = (outer_loop c s ids sh rels k).2.2 := by
  intro ids
  induction ids with
  | nil => intro sh rels k; exact ⟨rfl, rfl⟩
  | cons ra rest ih =>
    intro sh rels k
    unfold outer_pairs outer_loop
    by_cases hc : sh.contains ra = true
    · rw [if_pos hc, if_pos hc]
      exact ih sh rels k
    · rw [if_neg hc, if_neg hc]
      dsimp only
      obtain ⟨hsh, hk⟩ := inner_pairs_matches_loop c s ra rest sh rels k
      rw [hsh, hk]
      exact ih _ _ _

end WafOpt
